import Mathlib

/-!
# Verification of the OpenBlink WebIDE firmware-deployment protocol engine

Shallow embedding of the protocol engine found in
`web-ide/blink.js` (functions `negotiateMTU`, `sendFirmware`) and of the
CRC16 unit `crc16_reflect`.  Byte buffers are modelled as `List Nat`
(each element a byte value `< 256`); JavaScript numbers are modelled as
`Nat` (or `Int` where the source can produce negative values).  The
JavaScript bitwise operators agree with the `Nat` operations on the
value ranges exercised here: `x >>> 1` is `x / 2`, `x ^ y` is `Nat.xor`,
`x & 0xffff` is `Nat.land`, all exact for operands below `2 ^ 31`.
`DataView.setUint16(‹o›, v, true)` stores `v % 2 ^ 16` little-endian and
`setUint8` stores `v % 2 ^ 8`.
-/

namespace OpenBlink

/-! ## Protocol constants (blink.js lines 7-12) -/

def MAX_CHUNK_SIZE : Nat := 20
def DATA_HEADER_SIZE : Nat := 6
def PROGRAM_HEADER_SIZE : Nat := 8
def DEFAULT_MTU : Nat := 20
def REQUESTED_MTU : Nat := 512

/-! ## CRC16 Checksum Unit (`crc16_reflect`)

```js
function crc16_reflect(poly, seed, src) {
  let crc = seed;
  for (let i = 0; i < src.length; i++) {
    crc ^= src[i];
    for (let j = 0; j < 8; j++) {
      if (crc & 0x0001) {
        crc = (crc >>> 1) ^ poly;
      } else {
        crc = crc >>> 1;
      }
    }
  }
  return crc & 0xffff;
}
```
-/

/-- One iteration of the inner `for (let j = 0; j < 8; j++)` loop:
`if (crc & 1) crc = (crc >>> 1) ^ poly else crc = crc >>> 1`. -/
def crc16_bit (poly crc : Nat) : Nat :=
  if crc % 2 = 1 then (crc / 2) ^^^ poly else crc / 2

/-- Body of the outer loop for one source byte: `crc ^= src[i]` followed by
the eight inner iterations. -/
def crc16_byteStep (poly crc b : Nat) : Nat :=
  (List.range 8).foldl (fun c _ => crc16_bit poly c) (crc ^^^ b)

/-- The source function `crc16_reflect(poly, seed, src)`: fold the byte step over
the buffer starting from `seed`, then `return crc & 0xffff`. -/
def crc16_reflect (poly seed : Nat) (src : List Nat) : Nat :=
  (src.foldl (crc16_byteStep poly) seed) &&& 0xFFFF

/-- Spec-side reference algorithm, written from the spec's words (§4.1):
"reflected (LSB-first) CRC16 — for each byte, XOR into the low byte of a
16-bit accumulator, then for 8 iterations: if the low bit is set, shift right
and XOR with `polynomial`; else shift right.  Result masked to 16 bits."
Stated with `Function.iterate` for the eight shift steps; used only to be
compared against `crc16_reflect` above. -/
def crc16_refAlg (poly seed : Nat) (src : List Nat) : Nat :=
  (src.foldl
      (fun crc b =>
        (fun c => if c % 2 = 1 then (c / 2) ^^^ poly else c / 2)^[8] (crc ^^^ b))
      seed) &&& 0xFFFF

/-! ## Command Frame Codec

Frames are byte lists.  `u16le` is the effect of `DataView.setUint16(o, v,
true)`: the stored 16-bit value is `v` reduced modulo `2 ^ 16`, low byte
first. -/

/-- Little-endian 16-bit field as written by `setUint16(·, v, true)`:
two bytes holding `v % 2 ^ 16`. -/
def u16le (v : Nat) : List Nat := [v % 256, v % 65536 / 256]

/-- A Data frame as built inside the chunk loop of `sendFirmware`: the
`offset` loop variable, the computed `chunkDataSize`, and the payload copied
from `mrbContent.subarray(offset, offset + chunkDataSize)`. -/
structure DataFrame where
  offset : Nat
  chunkDataSize : Nat
  payload : List Nat
deriving Repr, DecidableEq

/-- Wire bytes of a Data frame: version `0x01`, tag `'D'` (68), 16-bit LE
offset, 16-bit LE chunk length, then the payload (blink.js lines 112-121). -/
def DataFrame.bytes (f : DataFrame) : List Nat :=
  0x01 :: 0x44 :: (u16le f.offset ++ u16le f.chunkDataSize ++ f.payload)

/-- Wire bytes of the Program frame (blink.js lines 134-142): version `0x01`,
tag `'P'` (80), 16-bit LE total length, 16-bit LE CRC16, slot byte,
reserved `0`. -/
def programFrame (contentLength crc16 slot : Nat) : List Nat :=
  0x01 :: 0x50 :: (u16le contentLength ++ u16le crc16 ++ [slot % 256, 0])

/-! ## Chunked Transfer Engine (`sendFirmware`)

The chunk loop
```js
for (let offset = 0; offset < contentLength; offset += DATA_PAYLOAD_SIZE) {
  const chunkDataSize = Math.min(DATA_PAYLOAD_SIZE, contentLength - offset);
  ...build and write the Data frame...
}
```
is modelled by recursion on `contentLength - offset`.  When
`DATA_PAYLOAD_SIZE = 0` (negotiatedMTU = 6) and the guard holds, the source
loop never advances `offset` and does not terminate; the model returns `none`
to mark that divergence (the separate `loopGuard` development below analyses
the iteration structure itself). -/

/-- The Data frame built at a given offset of the loop body. -/
def dataFrameAt (payloadSize : Nat) (content : List Nat) (offset : Nat) : DataFrame :=
  let chunkDataSize := min payloadSize (content.length - offset)
  ⟨offset, chunkDataSize, (content.drop offset).take chunkDataSize⟩

/-- The chunk loop with all writes succeeding: the list of Data frames built
and written, in loop order.  `none` marks the source's non-termination when
`payloadSize = 0` while the guard `offset < contentLength` holds. -/
def sendChunks (payloadSize : Nat) (content : List Nat) (offset : Nat) :
    Option (List DataFrame) :=
  if _h : offset < content.length then
    if _hp : payloadSize = 0 then none
    else
      match sendChunks payloadSize content (offset + payloadSize) with
      | none => none
      | some rest => some (dataFrameAt payloadSize content offset :: rest)
  else some []
termination_by content.length - offset
decreasing_by omega

/-- The payload budget `DATA_PAYLOAD_SIZE = negotiatedMTU - DATA_HEADER_SIZE` (blink.js line
107; shadowing local of `sendFirmware`). -/
def dataPayloadSize (negotiatedMTU : Nat) : Nat := negotiatedMTU - DATA_HEADER_SIZE

/-- The transfer `sendFirmware(mrbContent)` with all channel writes succeeding:
`contentLength` and the CRC are computed up front from the exact buffer,
the chunk loop runs, and the Program frame is built from the up-front
values.  Returns the Data frames in send order together with the Program
frame bytes; `none` marks the diverging loop (`payloadSize = 0` with a
nonempty buffer). -/
def sendFirmware (negotiatedMTU : Nat) (mrbContent : List Nat) :
    Option (List DataFrame × List Nat) :=
  let contentLength := mrbContent.length
  let crc16 := crc16_reflect 0xD175 0xFFFF mrbContent
  let slot := 2
  match sendChunks (dataPayloadSize negotiatedMTU) mrbContent 0 with
  | none => none
  | some frames => some (frames, programFrame contentLength crc16 slot)

/-! ## Loop-iteration structure for the termination analysis

The `for` loop advances `offset` from `0` by exactly `DATA_PAYLOAD_SIZE`
per iteration, so after `n` iterations `offset = n * payloadSize`; the loop
continues while `offset < contentLength`. -/

/-- The value of `offset` at the start of iteration `n` of the chunk loop. -/
def loopOffset (payloadSize n : Nat) : Nat := n * payloadSize

/-- The loop guard `offset < contentLength` tested at iteration `n`. -/
def loopGuard (contentLength payloadSize n : Nat) : Prop :=
  loopOffset payloadSize n < contentLength

instance (contentLength payloadSize n : Nat) :
    Decidable (loopGuard contentLength payloadSize n) := by
  unfold loopGuard; infer_instance

/-! ## Chunk loop with a write oracle (for the abort-on-failure behaviour)

```js
try {
  await writeCharacteristic(programCharacteristic, buffer);
  appendToConsole(`Send [D]ata Ok: Offset=${offset}, Size=${chunkDataSize}`);
} catch (error) {
  appendToConsole(`Send [D]ata Error: Offset=${offset}), Error:`, error);
  return;
}
```
`writeOk offset` tells whether the channel write of the chunk at `offset`
succeeds.  On the first failure the loop body logs the offset and `return`s
from `sendFirmware`: no further Data frame is attempted, the frame is not
retried, and the Program frame is never reached. -/

/-- The chunk loop under the write oracle.  Result: the Data frames whose
writes succeeded (in order) and, if a write failed, the offset reported by
the error path.  `none` again marks the diverging `payloadSize = 0` loop. -/
def sendChunksW (writeOk : Nat → Bool) (payloadSize : Nat) (content : List Nat)
    (offset : Nat) : Option (List DataFrame × Option Nat) :=
  if _h : offset < content.length then
    if _hp : payloadSize = 0 then none
    else
      if writeOk offset then
        match sendChunksW writeOk payloadSize content (offset + payloadSize) with
        | none => none
        | some (rest, err) => some (dataFrameAt payloadSize content offset :: rest, err)
      else some ([], some offset)
  else some ([], none)
termination_by content.length - offset
decreasing_by omega

/-- The transfer `sendFirmware` under the write oracle: the Data frames written, the
Program frame if it was sent (`none` when the transfer aborted), and the
failing offset reported by the error path, if any. -/
def sendFirmwareW (writeOk : Nat → Bool) (negotiatedMTU : Nat)
    (mrbContent : List Nat) :
    Option (List DataFrame × Option (List Nat) × Option Nat) :=
  let contentLength := mrbContent.length
  let crc16 := crc16_reflect 0xD175 0xFFFF mrbContent
  let slot := 2
  match sendChunksW writeOk (dataPayloadSize negotiatedMTU) mrbContent 0 with
  | none => none
  | some (frames, some failOffset) => some (frames, none, some failOffset)
  | some (frames, none) =>
      some (frames, some (programFrame contentLength crc16 slot), none)

/-! ## MTU Negotiator (`negotiateMTU`)

```js
if (gattServer.requestMTU) {
  try {
    negotiatedMTU = await gattServer.requestMTU(REQUESTED_MTU);
  } catch (error) {
    negotiatedMTU = DEFAULT_MTU;
  }
} else {
  try {
    const devicemtu = valueDataView.getUint16(0, true);
    negotiatedMTU = devicemtu - 3;
  } catch (error) { /* keep previous value */ }
}
```
The grant the transport returns from `requestMTU(512)` and the
device-reported `devicemtu` (a `getUint16` read) are inputs; a thrown
exception is `Except.error ()`.  `prior` is the value of the module-level
`negotiatedMTU` variable before the call (initially `DEFAULT_MTU`); the
devicemtu arithmetic can go negative in JavaScript, so the result is `Int`. -/

/-- The GATT server as `negotiateMTU` sees it: whether `requestMTU` exists,
and what `requestMTU(REQUESTED_MTU)` returns or throws. -/
structure GattServer where
  requestMTUSupported : Bool
  requestMTUResult : Except Unit Int
deriving Repr

/-- The negotiation `negotiateMTU` as a function of the server, the (fallible) devicemtu
read, and the prior value of the `negotiatedMTU` variable. -/
def negotiateMTU (gattServer : GattServer) (mtuRead : Except Unit Nat)
    (prior : Int) : Int :=
  if gattServer.requestMTUSupported then
    match gattServer.requestMTUResult with
    | .ok granted => granted
    | .error _ => (DEFAULT_MTU : Int)
  else
    match mtuRead with
    | .ok devicemtu => (devicemtu : Int) - 3
    | .error _ => prior

/-! ## Unfolding lemmas for the loop models -/

theorem sendChunks_stop {payloadSize : Nat} {content : List Nat} {offset : Nat}
    (h : ¬ offset < content.length) :
    sendChunks payloadSize content offset = some [] := by
  rw [sendChunks]
  simp [h]

theorem sendChunks_step {payloadSize : Nat} {content : List Nat} {offset : Nat}
    (hp : payloadSize ≠ 0) (h : offset < content.length) :
    sendChunks payloadSize content offset =
      (sendChunks payloadSize content (offset + payloadSize)).map
        (fun rest => dataFrameAt payloadSize content offset :: rest) := by
  rw [sendChunks]
  simp only [dif_pos h, dif_neg hp]
  cases sendChunks payloadSize content (offset + payloadSize) <;> rfl

theorem sendChunks_zero {content : List Nat} {offset : Nat}
    (h : offset < content.length) :
    sendChunks 0 content offset = none := by
  rw [sendChunks]
  simp [h]

/-- Main invariant of the chunk loop, for a positive payload size: from any
starting offset the loop terminates and the produced frame list satisfies all
the structural properties of the transfer (determined frames, ordering,
contiguity, coverage, sizes, count, and reassembly). -/
theorem sendChunks_spec (payloadSize : Nat) (content : List Nat)
    (hp : 1 ≤ payloadSize) (offset : Nat) :
    ∃ l, sendChunks payloadSize content offset = some l ∧
      (l = [] ↔ content.length ≤ offset) ∧
      (∀ f ∈ l, f = dataFrameAt payloadSize content f.offset) ∧
      (∀ f ∈ l, offset ≤ f.offset ∧ f.offset < content.length) ∧
      (∀ f, l[0]? = some f → f.offset = offset) ∧
      List.Chain' (fun a b => b.offset = a.offset + a.chunkDataSize) l ∧
      List.Pairwise (fun a b => a.offset + a.chunkDataSize ≤ b.offset) l ∧
      (l.map DataFrame.chunkDataSize).sum = content.length - offset ∧
      l.length = (content.length - offset + payloadSize - 1) / payloadSize ∧
      (l.map DataFrame.payload).flatten = content.drop offset ∧
      (∀ x, (offset ≤ x ∧ x < content.length) ↔
        ∃ f ∈ l, f.offset ≤ x ∧ x < f.offset + f.chunkDataSize) := by
  by_cases h : offset < content.length
  · obtain ⟨l', heq, hnil, hdet, hrange, hhead, hchain, hdisj, hsum, hlen, hjoin, hcov⟩ :=
      sendChunks_spec payloadSize content hp (offset + payloadSize)
    have hoff : (dataFrameAt payloadSize content offset).offset = offset := rfl
    have hsz : (dataFrameAt payloadSize content offset).chunkDataSize
        = min payloadSize (content.length - offset) := rfl
    have hm1 : min payloadSize (content.length - offset) ≤ payloadSize :=
      Nat.min_le_left _ _
    have hm2 : min payloadSize (content.length - offset) ≤ content.length - offset :=
      Nat.min_le_right _ _
    have hmpos : 1 ≤ min payloadSize (content.length - offset) := by
      rcases Nat.le_total payloadSize (content.length - offset) with hle | hle
      · rw [Nat.min_eq_left hle]; omega
      · rw [Nat.min_eq_right hle]; omega
    refine ⟨dataFrameAt payloadSize content offset :: l', ?_, ?_, ?_, ?_, ?_, ?_, ?_, ?_, ?_, ?_, ?_⟩
    · rw [sendChunks_step (by omega) h, heq]
      rfl
    · simp
      omega
    · intro f hf
      rcases List.mem_cons.mp hf with rfl | hf
      · rw [hoff]
      · exact hdet f hf
    · intro f hf
      rcases List.mem_cons.mp hf with rfl | hf
      · exact ⟨Nat.le_refl _, by rw [hoff]; exact h⟩
      · have := hrange f hf
        exact ⟨by omega, this.2⟩
    · intro f hf
      simp at hf
      rw [← hf, hoff]
    · rw [List.chain'_cons']
      refine ⟨?_, hchain⟩
      intro b hb
      have hb0 : l'[0]? = some b := by
        cases l' with
        | nil => simp at hb
        | cons a t => simpa using hb
      have hbo := hhead b hb0
      have hne : l' ≠ [] := by
        cases l' with
        | nil => simp at hb0
        | cons a t => simp
      have hlt : ¬ content.length ≤ offset + payloadSize := fun hle => hne (hnil.mpr hle)
      have hminp : min payloadSize (content.length - offset) = payloadSize :=
        Nat.min_eq_left (by omega)
      rw [hbo, hoff, hsz, hminp]
    · refine List.pairwise_cons.mpr ⟨?_, hdisj⟩
      intro b hb
      have := (hrange b hb).1
      rw [hoff, hsz]
      omega
    · simp only [List.map_cons, List.sum_cons, hsum, hsz]
      omega
    · simp only [List.length_cons, hlen]
      rcases Nat.le_total payloadSize (content.length - offset) with hle | hle
      · have e1 : content.length - (offset + payloadSize) + payloadSize - 1
            = content.length - offset - 1 := by omega
        have e3 : content.length - offset + payloadSize - 1
            = (content.length - offset - 1) + payloadSize := by omega
        rw [e1, e3, Nat.add_div_right _ (by omega)]
      · have e1 : content.length - (offset + payloadSize) = 0 := by omega
        have e2 : (0 + payloadSize - 1) / payloadSize = 0 :=
          Nat.div_eq_of_lt (by omega)
        have e3 : content.length - offset + payloadSize - 1
            = (content.length - offset - 1) + payloadSize := by omega
        have e4 : (content.length - offset - 1) / payloadSize = 0 :=
          Nat.div_eq_of_lt (by omega)
        rw [e1, e2, e3, Nat.add_div_right _ (by omega), e4]
    · simp only [List.map_cons, List.flatten_cons, hjoin]
      show (content.drop offset).take (min payloadSize (content.length - offset)) ++
        content.drop (offset + payloadSize) = content.drop offset
      rcases Nat.le_total payloadSize (content.length - offset) with hle | hle
      · rw [Nat.min_eq_left hle]
        conv_rhs => rw [← List.take_append_drop payloadSize (content.drop offset)]
        rw [List.drop_drop]
      · rw [Nat.min_eq_right hle]
        have e1 : (content.drop offset).take (content.length - offset)
            = content.drop offset := by
          apply List.take_of_length_le
          simp
        have e2 : content.drop (offset + payloadSize) = [] :=
          List.drop_eq_nil_of_le (by omega)
        rw [e1, e2, List.append_nil]
    · intro x
      constructor
      · rintro ⟨hx1, hx2⟩
        by_cases hx : x < offset + min payloadSize (content.length - offset)
        · exact ⟨dataFrameAt payloadSize content offset, List.mem_cons_self _ _,
            by rw [hoff]; exact hx1, by rw [hoff, hsz]; exact hx⟩
        · push_neg at hx
          have hxp : offset + payloadSize ≤ x := by
            rcases Nat.le_total payloadSize (content.length - offset) with hle | hle
            · rwa [Nat.min_eq_left hle] at hx
            · rw [Nat.min_eq_right hle] at hx
              omega
          obtain ⟨f, hf, hfx⟩ := (hcov x).mp ⟨hxp, hx2⟩
          exact ⟨f, List.mem_cons_of_mem _ hf, hfx⟩
      · rintro ⟨f, hf, hfx1, hfx2⟩
        rcases List.mem_cons.mp hf with rfl | hf
        · rw [hoff] at hfx1
          rw [hoff, hsz] at hfx2
          omega
        · have h1 := (hrange f hf).1
          have h2 := ((hcov x).mpr ⟨f, hf, hfx1, hfx2⟩).2
          omega
  · refine ⟨[], sendChunks_stop h, by simp; omega, by simp, by simp, by simp,
      List.chain'_nil, List.Pairwise.nil, by simp; omega, ?_, ?_, ?_⟩
    · simp only [List.length_nil]
      have e : content.length - offset = 0 := by omega
      rw [e]
      exact (Nat.div_eq_of_lt (by omega)).symm
    · simp only [List.map_nil, List.flatten_nil]
      exact (List.drop_eq_nil_of_le (by omega)).symm
    · intro x
      constructor
      · rintro ⟨hx1, hx2⟩
        omega
      · rintro ⟨f, hf, _⟩
        exact absurd hf (List.not_mem_nil f)
termination_by content.length - offset
decreasing_by omega

/-! ## Unfolding lemmas for the oracle loop -/

theorem sendChunksW_stop {writeOk : Nat → Bool} {payloadSize : Nat}
    {content : List Nat} {offset : Nat} (h : ¬ offset < content.length) :
    sendChunksW writeOk payloadSize content offset = some ([], none) := by
  rw [sendChunksW]
  simp [h]

theorem sendChunksW_fail {writeOk : Nat → Bool} {payloadSize : Nat}
    {content : List Nat} {offset : Nat} (hp : payloadSize ≠ 0)
    (h : offset < content.length) (hw : writeOk offset = false) :
    sendChunksW writeOk payloadSize content offset = some ([], some offset) := by
  rw [sendChunksW]
  simp [h, hp, hw]

theorem sendChunksW_step {writeOk : Nat → Bool} {payloadSize : Nat}
    {content : List Nat} {offset : Nat} (hp : payloadSize ≠ 0)
    (h : offset < content.length) (hw : writeOk offset = true) :
    sendChunksW writeOk payloadSize content offset =
      (sendChunksW writeOk payloadSize content (offset + payloadSize)).map
        (fun r => (dataFrameAt payloadSize content offset :: r.1, r.2)) := by
  rw [sendChunksW]
  simp only [dif_pos h, dif_neg hp, hw, if_pos]
  cases sendChunksW writeOk payloadSize content (offset + payloadSize) with
  | none => rfl
  | some r => cases r with | mk a b => rfl

/-- If the chunk write at the `k`-th chunk offset fails and every earlier
chunk write succeeds, the oracle loop stops there: exactly the first `k`
chunks were written, in order, each attempted once, and the failing offset is
reported. -/
theorem sendChunksW_first_failure (writeOk : Nat → Bool) (payloadSize : Nat)
    (content : List Nat) (hp : 1 ≤ payloadSize) :
    ∀ k offset, offset + k * payloadSize < content.length →
      writeOk (offset + k * payloadSize) = false →
      (∀ j < k, writeOk (offset + j * payloadSize) = true) →
      sendChunksW writeOk payloadSize content offset =
        some ((List.range k).map (fun j => dataFrameAt payloadSize content
                (offset + j * payloadSize)),
              some (offset + k * payloadSize)) := by
  intro k
  induction k with
  | zero =>
      intro offset hin hfail _
      simp only [Nat.zero_mul, Nat.add_zero] at hin hfail
      rw [sendChunksW_fail (by omega) hin hfail]
      simp
  | succ k ih =>
      intro offset hin hfail hprev
      have hsucc : ∀ j, offset + payloadSize + j * payloadSize
          = offset + (j + 1) * payloadSize := by
        intro j
        ring
      have h0 : writeOk offset = true := by
        have := hprev 0 (Nat.succ_pos k)
        simpa using this
      have hoff : offset < content.length := by
        have h1 : offset ≤ offset + (k + 1) * payloadSize := Nat.le_add_right _ _
        omega
      rw [sendChunksW_step (by omega) hoff h0]
      rw [ih (offset + payloadSize) (by rw [hsucc]; exact hin)
        (by rw [hsucc]; exact hfail)
        (fun j hj => by rw [hsucc]; exact hprev (j + 1) (by omega))]
      simp only [Option.map_some, List.range_succ_eq_map, List.map_cons, List.map_map]
      refine congrArg some (Prod.ext ?_ ?_)
      · simp only [Nat.zero_mul, Nat.add_zero]
        refine congrArg (_ :: ·) (List.map_congr_left ?_)
        intro j _
        simp only [Function.comp_apply, hsucc j, Nat.succ_eq_add_one]
      · simp only [hsucc k]

/-- If every chunk write succeeds, the oracle loop behaves as the plain loop:
same frames, no reported failure. -/
theorem sendChunksW_all_ok (writeOk : Nat → Bool) (payloadSize : Nat)
    (content : List Nat) :
    ∀ offset, (∀ o, offset ≤ o → writeOk o = true) →
      sendChunksW writeOk payloadSize content offset =
        (sendChunks payloadSize content offset).map (fun l => (l, none)) := by
  intro offset hok
  by_cases h : offset < content.length
  · by_cases hp : payloadSize = 0
    · subst hp
      rw [sendChunksW, sendChunks]
      simp [h]
    · rw [sendChunksW_step hp h (hok offset (Nat.le_refl _)),
        sendChunks_step hp h,
        sendChunksW_all_ok writeOk payloadSize content (offset + payloadSize)
          (fun o ho => hok o (by omega))]
      cases sendChunks payloadSize content (offset + payloadSize) <;> rfl
  · rw [sendChunksW_stop h, sendChunks_stop h]
    rfl
termination_by offset => content.length - offset
decreasing_by omega

/-! ## Arithmetic of the loop iteration count -/

/-- After `⌈len / p⌉` iterations the loop guard fails: the offset has reached
or passed `contentLength`. -/
theorem loop_exit (len p : Nat) (hp : 0 < p) : len ≤ ((len + p - 1) / p) * p := by
  rcases Nat.eq_zero_or_pos len with rfl | hl
  · simp
  · by_contra hcon
    push_neg at hcon
    have h1 : (len + p - 1) / p ≤ (len - 1) / p :=
      (Nat.le_div_iff_mul_le hp).mpr (by omega)
    have h2 : len + p - 1 = (len - 1) + p := by omega
    rw [h2, Nat.add_div_right _ hp] at h1
    omega

/-- Before `⌈len / p⌉` iterations the loop guard still holds. -/
theorem loop_enter (len p m : Nat) (hp : 0 < p)
    (hm : m < (len + p - 1) / p) : m * p < len := by
  by_contra hcon
  push_neg at hcon
  have h1 : len + p - 1 ≤ (p - 1) + m * p := by omega
  have h2 : (len + p - 1) / p ≤ ((p - 1) + m * p) / p := Nat.div_le_div_right h1
  rw [Nat.add_mul_div_right _ _ hp,
    Nat.div_eq_of_lt (show p - 1 < p by omega)] at h2
  omega

/-! ## CRC16 lemmas -/

/-- A `foldl` over `List.range n` with a body ignoring the counter is the
`n`-fold iterate of the body. -/
theorem foldl_range_iterate (g : Nat → Nat) (n : Nat) (x : Nat) :
    (List.range n).foldl (fun c _ => g c) x = g^[n] x := by
  induction n generalizing x with
  | zero => rfl
  | succ n ih =>
      rw [List.range_succ, List.foldl_append, ih, Function.iterate_succ_apply']
      rfl

/-- The source `crc16_reflect` computes exactly the spec's reference reflected
CRC16 algorithm. -/
theorem crc16_reflect_eq_refAlg (poly seed : Nat) (src : List Nat) :
    crc16_reflect poly seed src = crc16_refAlg poly seed src := by
  unfold crc16_reflect crc16_refAlg
  have hstep : crc16_byteStep poly = fun crc b =>
      (fun c => if c % 2 = 1 then (c / 2) ^^^ poly else c / 2)^[8] (crc ^^^ b) := by
    funext crc b
    exact foldl_range_iterate _ 8 _
  rw [hstep]

/-- The CRC result is always a 16-bit value (the final `& 0xffff`). -/
theorem crc16_reflect_lt (poly seed : Nat) (src : List Nat) :
    crc16_reflect poly seed src < 65536 :=
  Nat.lt_of_le_of_lt Nat.and_le_right (by norm_num)

/-- On the empty buffer the fold body never runs, so the result is the seed
masked to 16 bits; a 16-bit seed comes back unchanged. -/
theorem crc16_reflect_nil (poly seed : Nat) (hs : seed < 65536) :
    crc16_reflect poly seed [] = seed := by
  unfold crc16_reflect
  show seed &&& 0xFFFF = seed
  have h : (0xFFFF : Nat) = 2 ^ 16 - 1 := by norm_num
  rw [h]
  exact Nat.and_pow_two_sub_one_of_lt_two_pow (by norm_num at hs ⊢; omega)

/-! ## 16-bit field encoding lemmas -/

/-- The two bytes written by `setUint16(·, v, true)` decode (little-endian)
to `v % 2 ^ 16`: the field stores the value reduced modulo `2 ^ 16`. -/
theorem u16le_decode (v : Nat) :
    (u16le v)[0]! + 256 * (u16le v)[1]! = v % 65536 := by
  unfold u16le
  simp only [List.getElem!_cons_zero, List.getElem!_cons_succ]
  omega

/-- For values within the 16-bit range the field is exact. -/
theorem u16le_exact (v : Nat) (hv : v < 65536) :
    (u16le v)[0]! + 256 * (u16le v)[1]! = v := by
  rw [u16le_decode, Nat.mod_eq_of_lt hv]

/-- Field decoding for the Program frame: fixed 8-byte layout, version, tag,
little-endian 16-bit length and CRC (stored modulo `2 ^ 16`), slot byte,
reserved zero. -/
theorem programFrame_fields (len crc slot : Nat) :
    (programFrame len crc slot).length = 8 ∧
    (programFrame len crc slot)[0]! = 0x01 ∧
    (programFrame len crc slot)[1]! = 0x50 ∧
    (programFrame len crc slot)[2]! + 256 * (programFrame len crc slot)[3]! = len % 65536 ∧
    (programFrame len crc slot)[4]! + 256 * (programFrame len crc slot)[5]! = crc % 65536 ∧
    (programFrame len crc slot)[6]! = slot % 256 ∧
    (programFrame len crc slot)[7]! = 0 := by
  refine ⟨rfl, rfl, rfl, ?_, ?_, rfl, rfl⟩
  · show len % 256 + 256 * (len % 65536 / 256) = len % 65536
    omega
  · show crc % 256 + 256 * (crc % 65536 / 256) = crc % 65536
    omega

/-- Field decoding for a Data frame: version, tag, and the two little-endian
16-bit fields holding offset and chunk length modulo `2 ^ 16`. -/
theorem dataFrame_bytes_fields (f : DataFrame) :
    (f.bytes)[0]! = 0x01 ∧
    (f.bytes)[1]! = 0x44 ∧
    (f.bytes)[2]! + 256 * (f.bytes)[3]! = f.offset % 65536 ∧
    (f.bytes)[4]! + 256 * (f.bytes)[5]! = f.chunkDataSize % 65536 := by
  have hb : f.bytes = 0x01 :: 0x44 :: f.offset % 256 :: f.offset % 65536 / 256 ::
      f.chunkDataSize % 256 :: f.chunkDataSize % 65536 / 256 :: f.payload := by
    simp [DataFrame.bytes, u16le]
  rw [hb]
  simp only [List.getElem!_cons_zero, List.getElem!_cons_succ]
  refine ⟨trivial, trivial, by omega, by omega⟩

/-! ## Claim theorems -/

set_option maxRecDepth 8000 in
/-- C4: `crc16_reflect` implements the reflected (LSB-first) CRC16 reference
algorithm — for every polynomial, seed and buffer it agrees with the spec's
per-byte XOR / eight shift-and-conditionally-XOR steps / 16-bit mask
algorithm; on the empty buffer it returns any 16-bit seed unchanged, in
particular `crc16_reflect 0xD175 0xFFFF [] = 0xFFFF`; and it matches a known
reflected-CRC16 check value (CRC-16/KERMIT of "123456789"). -/
theorem crc16_reflect_matches_reference :
    (∀ poly seed src, crc16_reflect poly seed src = crc16_refAlg poly seed src) ∧
    (∀ poly seed, seed < 65536 → crc16_reflect poly seed [] = seed) ∧
    crc16_reflect 0xD175 0xFFFF [] = 0xFFFF ∧
    crc16_reflect 0x8408 0x0000
      [0x31, 0x32, 0x33, 0x34, 0x35, 0x36, 0x37, 0x38, 0x39] = 0x2189 :=
  ⟨crc16_reflect_eq_refAlg, crc16_reflect_nil, by decide, by decide⟩

/-- Witness for C4 at a concrete 16-bit seed. -/
theorem crc16_reflect_matches_reference_witness :
    crc16_reflect 0xD175 0x1234 [] = 0x1234 :=
  crc16_reflect_matches_reference.2.1 0xD175 0x1234 (by norm_num)

/-- C6 counterexample: a transport grant of 3 (< 7) is adopted verbatim by
`negotiateMTU`; it is not replaced by the default of 20. -/
theorem negotiateMTU_adopts_small_grant :
    negotiateMTU ⟨true, .ok 3⟩ (.error ()) 20 = 3 ∧ (3 : Int) < 7 ∧ (3 : Int) ≠ 20 :=
  ⟨rfl, by norm_num, by norm_num⟩

/-- C6 amended: `negotiateMTU` applies no minimum check.  It adopts whatever
value the transport grants; only a thrown MTU request falls back to the
default of 20; a successful device read yields `devicemtu - 3` verbatim; and
a failed read keeps the prior value. -/
theorem negotiateMTU_behaviour :
    (∀ (granted : Int) (mtuRead : Except Unit Nat) (prior : Int),
      negotiateMTU ⟨true, .ok granted⟩ mtuRead prior = granted) ∧
    (∀ (mtuRead : Except Unit Nat) (prior : Int),
      negotiateMTU ⟨true, .error ()⟩ mtuRead prior = 20) ∧
    (∀ (res : Except Unit Int) (devicemtu : Nat) (prior : Int),
      negotiateMTU ⟨false, res⟩ (.ok devicemtu) prior = (devicemtu : Int) - 3) ∧
    (∀ (res : Except Unit Int) (prior : Int),
      negotiateMTU ⟨false, res⟩ (.error ()) prior = prior) :=
  ⟨fun _ _ _ => rfl, fun _ _ => rfl, fun _ _ _ => rfl, fun _ _ => rfl⟩

/-- C8: when the channel supports the MTU-request primitive and the request
throws, `negotiateMTU` falls back to the default of 20; the session is not
aborted — the subsequent transfer runs with `DATA_PAYLOAD_SIZE = 14` and
succeeds for every buffer (all chunk sizes bounded by 14). -/
theorem mtu_request_throw_falls_back :
    (∀ (mtuRead : Except Unit Nat) (prior : Int),
      negotiateMTU ⟨true, .error ()⟩ mtuRead prior = 20) ∧
    dataPayloadSize 20 = 14 ∧
    (∀ mrbContent : List Nat, ∃ frames pf,
      sendFirmware 20 mrbContent = some (frames, pf) ∧
      ∀ f ∈ frames, f.chunkDataSize = min 14 (mrbContent.length - f.offset)) := by
  refine ⟨fun _ _ => rfl, rfl, ?_⟩
  intro mrbContent
  obtain ⟨l, heq, -, hdet, -, -, -, -, -, -, -, -⟩ :=
    sendChunks_spec (dataPayloadSize 20) mrbContent (by decide) 0
  refine ⟨l, _, by rw [sendFirmware, heq], ?_⟩
  intro f hf
  conv_lhs => rw [hdet f hf]
  rfl

/-- Witness for C8 at a concrete read result and buffer. -/
theorem mtu_request_throw_falls_back_witness :
    negotiateMTU ⟨true, .error ()⟩ (.ok 100) 20 = 20 ∧
    ∃ frames pf, sendFirmware 20 [1, 2, 3] = some (frames, pf) ∧
      ∀ f ∈ frames, f.chunkDataSize = min 14 ([1, 2, 3].length - f.offset) :=
  ⟨mtu_request_throw_falls_back.1 (.ok 100) 20,
   mtu_request_throw_falls_back.2.2 [1, 2, 3]⟩

theorem dataPayloadSize_eq (negotiatedMTU : Nat) :
    dataPayloadSize negotiatedMTU = negotiatedMTU - 6 := rfl

/-- C1: for every buffer of at most 65535 bytes and every negotiatedMTU ≥ 7,
the Data frames of the chunked transfer have strictly increasing, contiguous
offsets starting at 0, each payload length is
`min (negotiatedMTU - 6) (len - offset)` (equal to the frame's length
field), the payload lengths sum to the buffer length, and the offsets cover
`[0, len)` with no gaps or overlaps. -/
theorem sendFirmware_chunk_offsets_cover (negotiatedMTU : Nat)
    (mrbContent : List Nat) (hmtu : 7 ≤ negotiatedMTU)
    (hlen : mrbContent.length ≤ 65535) :
    ∃ frames pf, sendFirmware negotiatedMTU mrbContent = some (frames, pf) ∧
      (∀ f, frames[0]? = some f → f.offset = 0) ∧
      List.Pairwise (fun a b => a.offset < b.offset) frames ∧
      List.Chain' (fun a b => b.offset = a.offset + a.chunkDataSize) frames ∧
      (∀ f ∈ frames,
        f.payload.length = min (negotiatedMTU - 6) (mrbContent.length - f.offset) ∧
        f.chunkDataSize = f.payload.length) ∧
      (frames.map (fun f => f.payload.length)).sum = mrbContent.length ∧
      List.Pairwise (fun a b => a.offset + a.chunkDataSize ≤ b.offset) frames ∧
      (∀ x, x < mrbContent.length ↔
        ∃ f ∈ frames, f.offset ≤ x ∧ x < f.offset + f.chunkDataSize) := by
  have hp : 1 ≤ dataPayloadSize negotiatedMTU := by
    rw [dataPayloadSize_eq]
    omega
  obtain ⟨l, heq, hnil, hdet, hrange, hhead, hchain, hdisj, hsum, -, -, hcov⟩ :=
    sendChunks_spec (dataPayloadSize negotiatedMTU) mrbContent hp 0
  have hsize : ∀ f ∈ l,
      f.chunkDataSize = min (negotiatedMTU - 6) (mrbContent.length - f.offset) := by
    intro f hf
    conv_lhs => rw [hdet f hf]
    show min (dataPayloadSize negotiatedMTU) (mrbContent.length - f.offset) = _
    rw [dataPayloadSize_eq]
  have hpaylen : ∀ f ∈ l, f.payload.length = f.chunkDataSize := by
    intro f hf
    conv_lhs => rw [hdet f hf]
    conv_rhs => rw [hdet f hf]
    show ((mrbContent.drop f.offset).take
        (min (dataPayloadSize negotiatedMTU) (mrbContent.length - f.offset))).length = _
    rw [List.length_take, List.length_drop]
    exact Nat.min_eq_left (Nat.min_le_right _ _)
  have hpos : ∀ f ∈ l, 1 ≤ f.chunkDataSize := by
    intro f hf
    rw [hsize f hf]
    have h2 := (hrange f hf).2
    rcases Nat.le_total (negotiatedMTU - 6) (mrbContent.length - f.offset) with hle | hle
    · rw [Nat.min_eq_left hle]
      omega
    · rw [Nat.min_eq_right hle]
      omega
  refine ⟨l, _, by rw [sendFirmware, heq], hhead, ?_, hchain, ?_, ?_, hdisj, ?_⟩
  · refine hdisj.imp_of_mem ?_
    intro a b ha _ hab
    have := hpos a ha
    omega
  · intro f hf
    exact ⟨by rw [hpaylen f hf, hsize f hf], (hpaylen f hf).symm⟩
  · have hmaps : l.map (fun f => f.payload.length) = l.map DataFrame.chunkDataSize :=
      List.map_congr_left (fun f hf => hpaylen f hf)
    rw [hmaps, hsum, Nat.sub_zero]
  · intro x
    rw [← hcov x]
    simp

/-- Witness for C1 at a concrete buffer and MTU (three chunks of 2, 2, 1). -/
theorem sendFirmware_chunk_offsets_cover_witness :
    ∃ frames pf, sendFirmware 8 [10, 20, 30, 40, 50] = some (frames, pf) ∧
      (∀ f, frames[0]? = some f → f.offset = 0) ∧
      List.Pairwise (fun a b => a.offset < b.offset) frames ∧
      List.Chain' (fun a b => b.offset = a.offset + a.chunkDataSize) frames ∧
      (∀ f ∈ frames,
        f.payload.length = min (8 - 6) ([10, 20, 30, 40, 50].length - f.offset) ∧
        f.chunkDataSize = f.payload.length) ∧
      (frames.map (fun f => f.payload.length)).sum = [10, 20, 30, 40, 50].length ∧
      List.Pairwise (fun a b => a.offset + a.chunkDataSize ≤ b.offset) frames ∧
      (∀ x, x < [10, 20, 30, 40, 50].length ↔
        ∃ f ∈ frames, f.offset ≤ x ∧ x < f.offset + f.chunkDataSize) :=
  sendFirmware_chunk_offsets_cover 8 [10, 20, 30, 40, 50] (by norm_num) (by simp)

/-- C2: concatenating the payloads of the emitted Data frames in offset
order reproduces the firmware buffer exactly; each frame's payload is the
slice `B[offset .. offset + chunkDataSize)`. -/
theorem sendFirmware_roundTrip (negotiatedMTU : Nat) (mrbContent : List Nat)
    (hmtu : 7 ≤ negotiatedMTU) (hlen : mrbContent.length ≤ 65535) :
    ∃ frames pf, sendFirmware negotiatedMTU mrbContent = some (frames, pf) ∧
      (frames.map DataFrame.payload).flatten = mrbContent ∧
      ∀ f ∈ frames, f.payload = (mrbContent.drop f.offset).take f.chunkDataSize := by
  have hp : 1 ≤ dataPayloadSize negotiatedMTU := by
    rw [dataPayloadSize_eq]
    omega
  obtain ⟨l, heq, -, hdet, -, -, -, -, -, -, hjoin, -⟩ :=
    sendChunks_spec (dataPayloadSize negotiatedMTU) mrbContent hp 0
  refine ⟨l, _, by rw [sendFirmware, heq], by rw [hjoin, List.drop_zero], ?_⟩
  intro f hf
  conv_lhs => rw [hdet f hf]
  conv_rhs => rw [hdet f hf]
  rfl

/-- Witness for C2 at a concrete buffer and MTU. -/
theorem sendFirmware_roundTrip_witness :
    ∃ frames pf, sendFirmware 8 [9, 8, 7] = some (frames, pf) ∧
      (frames.map DataFrame.payload).flatten = [9, 8, 7] ∧
      ∀ f ∈ frames, f.payload = ([9, 8, 7].drop f.offset).take f.chunkDataSize :=
  sendFirmware_roundTrip 8 [9, 8, 7] (by norm_num) (by simp)

/-- C3: the Program frame sent after the chunks is built from the length of
the exact buffer and the CRC computed on that buffer before chunking (the
arguments of `programFrame` are `mrbContent.length` and
`crc16_reflect 0xD175 0xFFFF mrbContent` themselves, whatever the MTU and
hence the chunk boundaries); the frame is 8 bytes with version `0x01`, tag
`'P'`, the length and CRC stored little-endian and exactly (fields decode
back to the original values), slot 2 and reserved 0. -/
theorem sendFirmware_program_frame_exact (negotiatedMTU : Nat)
    (mrbContent : List Nat) (hmtu : 7 ≤ negotiatedMTU)
    (hlen : mrbContent.length ≤ 65535) :
    ∃ frames, sendFirmware negotiatedMTU mrbContent =
        some (frames,
          programFrame mrbContent.length (crc16_reflect 0xD175 0xFFFF mrbContent) 2) ∧
      (programFrame mrbContent.length
          (crc16_reflect 0xD175 0xFFFF mrbContent) 2).length = 8 ∧
      (programFrame mrbContent.length
          (crc16_reflect 0xD175 0xFFFF mrbContent) 2)[0]! = 0x01 ∧
      (programFrame mrbContent.length
          (crc16_reflect 0xD175 0xFFFF mrbContent) 2)[1]! = 0x50 ∧
      (programFrame mrbContent.length
          (crc16_reflect 0xD175 0xFFFF mrbContent) 2)[2]!
        + 256 * (programFrame mrbContent.length
            (crc16_reflect 0xD175 0xFFFF mrbContent) 2)[3]! = mrbContent.length ∧
      (programFrame mrbContent.length
          (crc16_reflect 0xD175 0xFFFF mrbContent) 2)[4]!
        + 256 * (programFrame mrbContent.length
            (crc16_reflect 0xD175 0xFFFF mrbContent) 2)[5]!
        = crc16_reflect 0xD175 0xFFFF mrbContent ∧
      (programFrame mrbContent.length
          (crc16_reflect 0xD175 0xFFFF mrbContent) 2)[6]! = 2 ∧
      (programFrame mrbContent.length
          (crc16_reflect 0xD175 0xFFFF mrbContent) 2)[7]! = 0 := by
  have hp : 1 ≤ dataPayloadSize negotiatedMTU := by
    rw [dataPayloadSize_eq]
    omega
  obtain ⟨l, heq, -, -, -, -, -, -, -, -, -, -⟩ :=
    sendChunks_spec (dataPayloadSize negotiatedMTU) mrbContent hp 0
  obtain ⟨hf1, hf2, hf3, hf4, hf5, hf6, hf7⟩ :=
    programFrame_fields mrbContent.length (crc16_reflect 0xD175 0xFFFF mrbContent) 2
  refine ⟨l, by rw [sendFirmware, heq], hf1, hf2, hf3, ?_, ?_, hf6, hf7⟩
  · rw [hf4, Nat.mod_eq_of_lt (by omega)]
  · rw [hf5, Nat.mod_eq_of_lt (crc16_reflect_lt 0xD175 0xFFFF mrbContent)]

/-- Witness for C3 at a concrete buffer and MTU. -/
theorem sendFirmware_program_frame_exact_witness :
    ∃ frames, sendFirmware 8 [1, 2, 3, 4, 5] =
        some (frames,
          programFrame [1, 2, 3, 4, 5].length
            (crc16_reflect 0xD175 0xFFFF [1, 2, 3, 4, 5]) 2) ∧
      (programFrame [1, 2, 3, 4, 5].length
          (crc16_reflect 0xD175 0xFFFF [1, 2, 3, 4, 5]) 2).length = 8 ∧
      (programFrame [1, 2, 3, 4, 5].length
          (crc16_reflect 0xD175 0xFFFF [1, 2, 3, 4, 5]) 2)[0]! = 0x01 ∧
      (programFrame [1, 2, 3, 4, 5].length
          (crc16_reflect 0xD175 0xFFFF [1, 2, 3, 4, 5]) 2)[1]! = 0x50 ∧
      (programFrame [1, 2, 3, 4, 5].length
          (crc16_reflect 0xD175 0xFFFF [1, 2, 3, 4, 5]) 2)[2]!
        + 256 * (programFrame [1, 2, 3, 4, 5].length
            (crc16_reflect 0xD175 0xFFFF [1, 2, 3, 4, 5]) 2)[3]!
        = [1, 2, 3, 4, 5].length ∧
      (programFrame [1, 2, 3, 4, 5].length
          (crc16_reflect 0xD175 0xFFFF [1, 2, 3, 4, 5]) 2)[4]!
        + 256 * (programFrame [1, 2, 3, 4, 5].length
            (crc16_reflect 0xD175 0xFFFF [1, 2, 3, 4, 5]) 2)[5]!
        = crc16_reflect 0xD175 0xFFFF [1, 2, 3, 4, 5] ∧
      (programFrame [1, 2, 3, 4, 5].length
          (crc16_reflect 0xD175 0xFFFF [1, 2, 3, 4, 5]) 2)[6]! = 2 ∧
      (programFrame [1, 2, 3, 4, 5].length
          (crc16_reflect 0xD175 0xFFFF [1, 2, 3, 4, 5]) 2)[7]! = 0 :=
  sendFirmware_program_frame_exact 8 [1, 2, 3, 4, 5] (by norm_num) (by simp)

/-- C5 counterexample: the engine performs no pre-encoding range check.
With `negotiatedMTU = 6` the payload size is `0 < 1`, an input the claim says
is rejected with `ProtocolLimitExceeded` before encoding; yet on the empty
buffer `sendFirmware` completes and emits a Program frame.  Moreover the
16-bit encoder silently truncates: a totalLength of 65536 is encoded as the
same frame as 0. -/
theorem sendFirmware_no_limit_check :
    sendFirmware 6 [] = some ([], programFrame 0 0xFFFF 2) ∧
    programFrame 65536 0 2 = programFrame 0 0 2 := by
  constructor
  · have h : sendChunks (dataPayloadSize 6) ([] : List Nat) 0 = some [] :=
      sendChunks_stop (by simp)
    rw [sendFirmware, h]
    rfl
  · decide

/-- C5 amended: the engine performs no range validation and never raises a
limit error.  For every `negotiatedMTU ≥ 7` it encodes frames for any buffer,
with every 16-bit field (Data offset, Data chunk length, Program totalLength)
stored reduced modulo `2 ^ 16` — silent truncation instead of rejection; and
with `negotiatedMTU = 6` (payload size 0) and a nonempty buffer it does not
reject either: the chunk loop simply never terminates. -/
theorem sendFirmware_never_rejects :
    (∀ (negotiatedMTU : Nat) (mrbContent : List Nat), 7 ≤ negotiatedMTU →
      ∃ frames pf, sendFirmware negotiatedMTU mrbContent = some (frames, pf) ∧
        pf[2]! + 256 * pf[3]! = mrbContent.length % 65536 ∧
        ∀ f ∈ frames,
          (f.bytes)[2]! + 256 * (f.bytes)[3]! = f.offset % 65536 ∧
          (f.bytes)[4]! + 256 * (f.bytes)[5]! = f.chunkDataSize % 65536) ∧
    (∀ mrbContent : List Nat, mrbContent ≠ [] → sendFirmware 6 mrbContent = none) := by
  constructor
  · intro negotiatedMTU mrbContent hmtu
    have hp : 1 ≤ dataPayloadSize negotiatedMTU := by
      rw [dataPayloadSize_eq]
      omega
    obtain ⟨l, heq, -, -, -, -, -, -, -, -, -, -⟩ :=
      sendChunks_spec (dataPayloadSize negotiatedMTU) mrbContent hp 0
    refine ⟨l, _, by rw [sendFirmware, heq], ?_, ?_⟩
    · exact (programFrame_fields mrbContent.length _ 2).2.2.2.1
    · intro f hf
      exact ⟨(dataFrame_bytes_fields f).2.2.1, (dataFrame_bytes_fields f).2.2.2⟩
  · intro mrbContent hne
    have hlen : 0 < mrbContent.length := List.length_pos.mpr hne
    have h : sendChunks (dataPayloadSize 6) mrbContent 0 = none :=
      sendChunks_zero hlen
    rw [sendFirmware, h]

/-- Witness for (amended) C5 at concrete inputs. -/
theorem sendFirmware_never_rejects_witness :
    (∃ frames pf, sendFirmware 20 [5] = some (frames, pf) ∧
      pf[2]! + 256 * pf[3]! = [5].length % 65536 ∧
      ∀ f ∈ frames,
        (f.bytes)[2]! + 256 * (f.bytes)[3]! = f.offset % 65536 ∧
        (f.bytes)[4]! + 256 * (f.bytes)[5]! = f.chunkDataSize % 65536) ∧
    sendFirmware 6 [5] = none :=
  ⟨sendFirmware_never_rejects.1 20 [5] (by norm_num),
   sendFirmware_never_rejects.2 [5] (by simp)⟩

/-- C7: if the chunk write at the `k`-th chunk offset fails (all earlier ones
succeeding), the transfer aborts there: exactly the chunks before the failing
offset were written, in order and each attempted once (no retry), no Program
frame is sent, and the failing offset is reported. -/
theorem sendFirmware_abort_on_chunk_failure (writeOk : Nat → Bool)
    (negotiatedMTU : Nat) (mrbContent : List Nat) (k : Nat)
    (hmtu : 7 ≤ negotiatedMTU)
    (hin : k * dataPayloadSize negotiatedMTU < mrbContent.length)
    (hfail : writeOk (k * dataPayloadSize negotiatedMTU) = false)
    (hprev : ∀ j < k, writeOk (j * dataPayloadSize negotiatedMTU) = true) :
    sendFirmwareW writeOk negotiatedMTU mrbContent =
      some ((List.range k).map (fun j =>
              dataFrameAt (dataPayloadSize negotiatedMTU) mrbContent
                (j * dataPayloadSize negotiatedMTU)),
            none, some (k * dataPayloadSize negotiatedMTU)) := by
  have hp : 1 ≤ dataPayloadSize negotiatedMTU := by
    rw [dataPayloadSize_eq]
    omega
  have h := sendChunksW_first_failure writeOk (dataPayloadSize negotiatedMTU)
    mrbContent hp k 0 (by simpa using hin) (by simpa using hfail)
    (fun j hj => by simpa using hprev j hj)
  rw [sendFirmwareW, h]
  simp only [Nat.zero_add]

/-- Witness for C7: with MTU 20 on a 30-byte buffer, the write of the chunk
at offset 14 fails; only the chunk at offset 0 is sent, no Program frame is
sent, and offset 14 is reported. -/
theorem sendFirmware_abort_on_chunk_failure_witness :
    sendFirmwareW (fun o => o != 14) 20 (List.range 30) =
      some ((List.range 1).map (fun j =>
              dataFrameAt (dataPayloadSize 20) (List.range 30)
                (j * dataPayloadSize 20)),
            none, some (1 * dataPayloadSize 20)) :=
  sendFirmware_abort_on_chunk_failure (fun o => o != 14) 20 (List.range 30) 1
    (by norm_num) (by decide) (by decide) (by decide)

/-- C9: the chunk loop advances the offset by exactly
`DATA_PAYLOAD_SIZE = negotiatedMTU - 6` per iteration.  Whenever that payload
size is at least 1 the loop terminates after exactly
`⌈len / payloadSize⌉` iterations (the guard fails there and holds at every
earlier iteration, and the loop emits exactly that many Data frames); when
the payload size is 0 and the buffer is nonempty the guard holds at every
iteration — the positivity precondition is what termination rests on. -/
theorem sendFirmware_loop_terminates_iff_positive :
    (∀ (negotiatedMTU : Nat) (mrbContent : List Nat),
      1 ≤ dataPayloadSize negotiatedMTU →
      (¬ loopGuard mrbContent.length (dataPayloadSize negotiatedMTU)
          ((mrbContent.length + dataPayloadSize negotiatedMTU - 1)
            / dataPayloadSize negotiatedMTU)) ∧
      (∀ m < (mrbContent.length + dataPayloadSize negotiatedMTU - 1)
          / dataPayloadSize negotiatedMTU,
        loopGuard mrbContent.length (dataPayloadSize negotiatedMTU) m) ∧
      (∃ frames, sendChunks (dataPayloadSize negotiatedMTU) mrbContent 0
          = some frames ∧
        frames.length = (mrbContent.length + dataPayloadSize negotiatedMTU - 1)
          / dataPayloadSize negotiatedMTU)) ∧
    (∀ (negotiatedMTU : Nat) (mrbContent : List Nat) (n : Nat),
      dataPayloadSize negotiatedMTU = 0 → 0 < mrbContent.length →
      loopGuard mrbContent.length (dataPayloadSize negotiatedMTU) n) := by
  constructor
  · intro negotiatedMTU mrbContent hp
    refine ⟨?_, ?_, ?_⟩
    · unfold loopGuard loopOffset
      have := loop_exit mrbContent.length (dataPayloadSize negotiatedMTU) hp
      omega
    · intro m hm
      unfold loopGuard loopOffset
      exact loop_enter mrbContent.length (dataPayloadSize negotiatedMTU) m hp hm
    · obtain ⟨l, heq, -, -, -, -, -, -, -, hlen2, -, -⟩ :=
        sendChunks_spec (dataPayloadSize negotiatedMTU) mrbContent hp 0
      exact ⟨l, heq, by rw [hlen2, Nat.sub_zero]⟩
  · intro negotiatedMTU mrbContent n hp0 hlen
    unfold loopGuard loopOffset
    rw [hp0, Nat.mul_zero]
    exact hlen

/-- Witness for C9: MTU 20 on a 3-byte buffer terminates after 1 iteration;
MTU 6 (payload size 0) on a 1-byte buffer has the guard hold at iteration 5. -/
theorem sendFirmware_loop_terminates_iff_positive_witness :
    ((¬ loopGuard [1, 2, 3].length (dataPayloadSize 20)
        (([1, 2, 3].length + dataPayloadSize 20 - 1) / dataPayloadSize 20)) ∧
     (∀ m < ([1, 2, 3].length + dataPayloadSize 20 - 1) / dataPayloadSize 20,
        loopGuard [1, 2, 3].length (dataPayloadSize 20) m) ∧
     (∃ frames, sendChunks (dataPayloadSize 20) [1, 2, 3] 0 = some frames ∧
        frames.length = ([1, 2, 3].length + dataPayloadSize 20 - 1)
          / dataPayloadSize 20)) ∧
    loopGuard [1].length (dataPayloadSize 6) 5 :=
  ⟨sendFirmware_loop_terminates_iff_positive.1 20 [1, 2, 3] (by decide),
   sendFirmware_loop_terminates_iff_positive.2 6 [1] 5 (by decide) (by simp)⟩

/-- C10: for a buffer longer than 65535 bytes (and a workable MTU ≥ 7)
`sendFirmware` raises no error: it still emits Data frames and the Program
frame, and the 16-bit offset, chunk-length and totalLength fields store their
values reduced modulo `2 ^ 16`. -/
theorem sendFirmware_oversize_truncates (negotiatedMTU : Nat)
    (mrbContent : List Nat) (hmtu : 7 ≤ negotiatedMTU)
    (hlen : 65535 < mrbContent.length) :
    ∃ frames, sendFirmware negotiatedMTU mrbContent =
        some (frames,
          programFrame mrbContent.length (crc16_reflect 0xD175 0xFFFF mrbContent) 2) ∧
      frames ≠ [] ∧
      (programFrame mrbContent.length
          (crc16_reflect 0xD175 0xFFFF mrbContent) 2)[2]!
        + 256 * (programFrame mrbContent.length
            (crc16_reflect 0xD175 0xFFFF mrbContent) 2)[3]!
        = mrbContent.length % 65536 ∧
      (∀ f ∈ frames,
        (f.bytes)[2]! + 256 * (f.bytes)[3]! = f.offset % 65536 ∧
        (f.bytes)[4]! + 256 * (f.bytes)[5]! = f.chunkDataSize % 65536) := by
  have hp : 1 ≤ dataPayloadSize negotiatedMTU := by
    rw [dataPayloadSize_eq]
    omega
  obtain ⟨l, heq, hnil, -, -, -, -, -, -, -, -, -⟩ :=
    sendChunks_spec (dataPayloadSize negotiatedMTU) mrbContent hp 0
  refine ⟨l, by rw [sendFirmware, heq], ?_, ?_, ?_⟩
  · intro hl
    have := hnil.mp hl
    omega
  · exact (programFrame_fields mrbContent.length _ 2).2.2.2.1
  · intro f hf
    exact ⟨(dataFrame_bytes_fields f).2.2.1, (dataFrame_bytes_fields f).2.2.2⟩

/-- Witness for C10 on a concrete 65536-byte buffer (one oversize chunk). -/
theorem sendFirmware_oversize_truncates_witness :
    ∃ frames, sendFirmware 70000 (List.replicate 65536 0) =
        some (frames,
          programFrame (List.replicate 65536 0).length
            (crc16_reflect 0xD175 0xFFFF (List.replicate 65536 0)) 2) ∧
      frames ≠ [] ∧
      (programFrame (List.replicate 65536 0).length
          (crc16_reflect 0xD175 0xFFFF (List.replicate 65536 0)) 2)[2]!
        + 256 * (programFrame (List.replicate 65536 0).length
            (crc16_reflect 0xD175 0xFFFF (List.replicate 65536 0)) 2)[3]!
        = (List.replicate 65536 0).length % 65536 ∧
      (∀ f ∈ frames,
        (f.bytes)[2]! + 256 * (f.bytes)[3]! = f.offset % 65536 ∧
        (f.bytes)[4]! + 256 * (f.bytes)[5]! = f.chunkDataSize % 65536) :=
  sendFirmware_oversize_truncates 70000 (List.replicate 65536 0)
    (by norm_num) (by rw [List.length_replicate]; norm_num)

end OpenBlink
